import Mathlib

/-!
# RedisGraph scalar values (src/value.h)

A shallow embedding of the type tags, the class masks, the comparability
test and the sign-extraction step of value.h, together with a model of the
comparison routine the header declares and documents.
-/

namespace RedisGraph

set_option maxRecDepth 100000

set_option exponentiation.threshold 4096

/-! ## Type tags (value.h, lines 23-39) -/

/-- The members of the C enumeration SIType. -/
inductive SIType where
  | T_NULL
  | T_STRING
  | T_CONSTSTRING
  | T_INT32
  | T_INT64
  | T_UINT
  | T_BOOL
  | T_FLOAT
  | T_DOUBLE
  | T_PTR
  | T_INF
  | T_NEGINF
  deriving DecidableEq, Repr, Fintype

/-- The integer value the enumeration gives each member. -/
def SIType.toNat : SIType → Nat
  | .T_NULL => 0
  | .T_STRING => 0x001
  | .T_CONSTSTRING => 0x002
  | .T_INT32 => 0x004
  | .T_INT64 => 0x008
  | .T_UINT => 0x010
  | .T_BOOL => 0x020
  | .T_FLOAT => 0x040
  | .T_DOUBLE => 0x080
  | .T_PTR => 0x100
  | .T_INF => 0x200
  | .T_NEGINF => 0x400

/-- The macro SI_STRING: (T_STRING | T_CONSTSTRING). -/
def SI_STRING : Nat :=
  SIType.T_STRING.toNat ||| SIType.T_CONSTSTRING.toNat

/-- The macro SI_NUMERIC: (T_INT32 | T_INT64 | T_UINT | T_FLOAT | T_DOUBLE). -/
def SI_NUMERIC : Nat :=
  SIType.T_INT32.toNat ||| SIType.T_INT64.toNat ||| SIType.T_UINT.toNat |||
    SIType.T_FLOAT.toNat ||| SIType.T_DOUBLE.toNat

/-- The expression a.type - b.type on two tags, as a C int. -/
def tagDelta (a b : SIType) : Int :=
  (a.toNat : Int) - (b.toNat : Int)

/-! ## Double precision numbers

A value of C type double, in units of 2^-1074 (the smallest positive
subnormal): every finite binary64 number is an integer number of such units,
of at most 53 significant bits and of magnitude below 2^2098. The two signed
zeros are identified; they are equal for every comparison operator. -/

/-- A double: not-a-number, the two infinities, or a finite number of units of 2^-1074. -/
inductive Double where
  | nan
  | inf
  | neginf
  | fin (m : Int)
  deriving DecidableEq, Repr

/-- The number of units of 2^-1074 in 1.0. -/
def Double.unit : Int := ((2 ^ 1074 : Nat) : Int)

/-- The position of the highest set bit of n (0 for n below 2), by halving, with
enough fuel for every n when the fuel is n itself. -/
def log2Fuel : Nat → Nat → Nat
  | 0, _ => 0
  | fuel + 1, n => if 2 ≤ n then log2Fuel fuel (n / 2) + 1 else 0

/-- The binary exponent of a positive natural number: floor of its base-2 logarithm. -/
def ilog2 (n : Nat) : Nat :=
  log2Fuel n n

/-- A magnitude of at least 2^53 units rounded to 53 significant bits, to nearest
and ties to even: with e the binary exponent of a, the multiple of 2^(e-52) nearest
to a, and of the two nearest the one with an even quotient when a is halfway. -/
def Double.roundMag (a : Nat) : Nat :=
  let sh := ilog2 a - 52
  let q := a / 2 ^ sh
  let r := a % 2 ^ sh
  let half := 2 ^ (sh - 1)
  (if r < half ∨ (r = half ∧ q % 2 = 0) then q else q + 1) * 2 ^ sh

/-- Round-to-nearest, ties-to-even, of an exact number of units to binary64:
numbers below 2^53 units are exact, larger ones keep 53 significant bits, and a
result of 2^2098 units (2^1024) or more overflows to an infinity. -/
def Double.round (d : Int) : Double :=
  let a := d.natAbs
  if a < 2 ^ 53 then .fin d
  else
    let m := Double.roundMag a
    if 2 ^ 2098 ≤ m then (if d < 0 then .neginf else .inf)
    else .fin (if d < 0 then -(m : Int) else (m : Int))

/-- Conversion of a C integer to double: the integer in units, rounded to nearest,
ties to even (exact up to magnitude 2^53). -/
def Double.ofInt (v : Int) : Double :=
  Double.round (v * Double.unit)

/-- Subtraction of doubles (IEEE 754, round to nearest even). -/
def Double.sub : Double → Double → Double
  | .nan, _ => .nan
  | _, .nan => .nan
  | .inf, .inf => .nan
  | .neginf, .neginf => .nan
  | .inf, _ => .inf
  | .neginf, _ => .neginf
  | .fin _, .inf => .neginf
  | .fin _, .neginf => .inf
  | .fin a, .fin b => Double.round (a - b)

/-- The C operator < on doubles: false as soon as an operand is not-a-number. -/
def Double.lt : Double → Double → Bool
  | .nan, _ => false
  | _, .nan => false
  | .inf, _ => false
  | _, .inf => true
  | _, .neginf => false
  | .neginf, _ => true
  | .fin a, .fin b => decide (a < b)

/-- Unary minus on doubles. -/
def Double.neg : Double → Double
  | .nan => .nan
  | .inf => .neginf
  | .neginf => .inf
  | .fin m => .fin (-m)

instance : Zero Double := ⟨.fin 0⟩

instance : Sub Double := ⟨Double.sub⟩

instance : LT Double := ⟨fun a b => Double.lt a b = true⟩

instance (a b : Double) : Decidable (a < b) :=
  inferInstanceAs (Decidable (Double.lt a b = true))

/-! ## The sign-extraction macro (value.h, line 53) -/

/-- The macro COMPARE_RETVAL: ((a) > 0) - ((a) < 0), for any C arithmetic type. -/
def COMPARE_RETVAL {α : Type} [Zero α] [LT α] [DecidableRel (fun (x y : α) => x < y)]
    (a : α) : Int :=
  (if a > 0 then 1 else 0) - (if a < 0 then 1 else 0)

/-- The conversion of a number to a C int, which truncates toward zero. -/
def truncToInt (d : ℚ) : Int :=
  if 0 ≤ d then ⌊d⌋ else ⌈d⌉

/-! ## Values (value.h, lines 55-67) -/

/-- The struct SIValue: the members of its anonymous union and its tag. Only the
member the tag selects is meaningful; strings are their bytes up to the
terminating zero. -/
structure SIValue where
  intval : Int := 0
  longval : Int := 0
  uintval : Nat := 0
  floatval : Double := .fin 0
  doubleval : Double := .fin 0
  boolval : Int := 0
  stringval : List Nat := []
  ptrval : Nat := 0
  type : SIType
  deriving DecidableEq, Repr

/-- The macro SI_COMPARABLE: same type, both numeric types, or both string types. -/
def SI_COMPARABLE (aVal bVal : SIValue) : Bool :=
  aVal.type.toNat == bVal.type.toNat ||
    ((aVal.type.toNat &&& SI_NUMERIC != 0) && (bVal.type.toNat &&& SI_NUMERIC != 0)) ||
    ((aVal.type.toNat &&& SI_STRING != 0) && (bVal.type.toNat &&& SI_STRING != 0))

/-- The integer a value of an integer tag holds (its 32-bit, 64-bit or unsigned
member); nothing for the other tags. -/
def SIValue.intPayload (v : SIValue) : Option Int :=
  match v.type with
  | .T_INT32 => some v.intval
  | .T_INT64 => some v.longval
  | .T_UINT => some (v.uintval : Int)
  | _ => none

/-! ## Tag classes as the documentation lists them -/

/-- The string types the documentation lists: owned and borrowed strings. -/
def stringTags : List SIType :=
  [.T_STRING, .T_CONSTSTRING]

/-- The numeric types the documentation lists. -/
def numericTags : List SIType :=
  [.T_INT32, .T_INT64, .T_UINT, .T_FLOAT, .T_DOUBLE]

/-! ## The comparison routine

The header declares the constructors, SIValue_ToDouble and SIValue_Compare and
documents them; their bodies are in value.c, which is not among the sources. -/

/-- Modelled from the spec: the typed constructor SI_IntVal of value.c (declared in
value.h, line 87); it returns a value with the 32-bit int tag set. -/
def SI_IntVal (i : Int) : SIValue :=
  { intval := i, type := .T_INT32 }

/-- Modelled from the spec: the typed constructor SI_LongVal of value.c (declared in
value.h, line 88); it returns a value with the 64-bit int tag set. -/
def SI_LongVal (i : Int) : SIValue :=
  { longval := i, type := .T_INT64 }

/-- Modelled from the spec: the typed constructor SI_UintVal of value.c (declared in
value.h, line 89); it returns a value with the unsigned int tag set. -/
def SI_UintVal (i : Nat) : SIValue :=
  { uintval := i, type := .T_UINT }

/-- Modelled from the spec: the typed constructor SI_DoubleVal of value.c (declared in
value.h, line 91); it returns a value with the double tag set. -/
def SI_DoubleVal (d : Double) : SIValue :=
  { doubleval := d, type := .T_DOUBLE }

/-- Modelled from the spec: the typed constructor SI_BoolVal of value.c (declared in
value.h, line 93); it returns a value with the boolean tag set. -/
def SI_BoolVal (b : Int) : SIValue :=
  { boolval := b, type := .T_BOOL }

/-- Modelled from the spec: the promotion of a numeric-class value to double
precision, SIValue_ToDouble of value.c (declared in value.h, line 119): the member
the tag selects, converted to double; nothing for a tag outside the numeric class. -/
def SIValue_ToDouble (v : SIValue) : Option Double :=
  match v.type with
  | .T_INT32 => some (Double.ofInt v.intval)
  | .T_INT64 => some (Double.ofInt v.longval)
  | .T_UINT => some (Double.ofInt (v.uintval : Int))
  | .T_FLOAT => some v.floatval
  | .T_DOUBLE => some v.doubleval
  | _ => none

/-- Modelled from the spec: the ordinal byte comparison of two strings (strcmp of the
C library, which value.c calls): the difference of the first pair of bytes that
differ, the end of a string counting as the byte 0. -/
def strcmp : List Nat → List Nat → Int
  | [], [] => 0
  | [], b :: _ => - (b : Int)
  | a :: _, [] => (a : Int)
  | a :: as, b :: bs => if a = b then strcmp as bs else (a : Int) - (b : Int)

/-- Modelled from the spec: SIValue_Compare of value.c (declared in value.h, line
133). Two values that are SI_COMPARABLE are ordered by their value: numeric-class
values are promoted to double, subtracted and reduced by COMPARE_RETVAL,
string-class values are compared byte by byte, and values of one other tag by
COMPARE_RETVAL of the difference of their payloads (null and the infinity
sentinels carry none). Every other pair is ordered by the delta of the tags. -/
def SIValue_Compare (a b : SIValue) : Int :=
  if SI_COMPARABLE a b then
    match SIValue_ToDouble a, SIValue_ToDouble b with
    | some x, some y => COMPARE_RETVAL (x - y)
    | _, _ =>
      if a.type.toNat &&& SI_STRING != 0 then strcmp a.stringval b.stringval
      else
        match a.type with
        | .T_BOOL => COMPARE_RETVAL (a.boolval - b.boolval)
        | .T_PTR => COMPARE_RETVAL ((a.ptrval : Int) - (b.ptrval : Int))
        | _ => 0
  else tagDelta a.type b.type

/-! ## Lemmas on the double model -/

theorem log2Fuel_eq_log2 (fuel n : Nat) (h : n ≤ fuel) : log2Fuel fuel n = Nat.log2 n := by
  induction fuel generalizing n with
  | zero =>
    have : n = 0 := by omega
    subst this
    simp [log2Fuel, Nat.log2_zero]
  | succ f ih =>
    rw [log2Fuel, Nat.log2]
    by_cases h2 : 2 ≤ n
    · have h3 : n / 2 ≤ f := by omega
      simp [h2, ih _ h3]
    · simp [h2]

theorem ilog2_eq_log2 (n : Nat) : ilog2 n = Nat.log2 n :=
  log2Fuel_eq_log2 n n (Nat.le_refl n)

theorem two_pow_ilog2_le (n : Nat) (h : n ≠ 0) : 2 ^ ilog2 n ≤ n := by
  rw [ilog2_eq_log2]; exact Nat.log2_self_le h

theorem lt_two_pow_ilog2 (n : Nat) : n < 2 ^ (ilog2 n + 1) := by
  rw [ilog2_eq_log2]; exact Nat.lt_log2_self

theorem roundMag_pos (a : Nat) (h : a ≠ 0) : 0 < Double.roundMag a := by
  unfold Double.roundMag
  have h1 : 2 ^ (ilog2 a - 52) ≤ a :=
    le_trans (Nat.pow_le_pow_right (by decide) (Nat.sub_le _ _)) (two_pow_ilog2_le a h)
  have hp : 0 < 2 ^ (ilog2 a - 52) := Nat.pos_pow_of_pos _ (by decide)
  have hq : 0 < a / 2 ^ (ilog2 a - 52) := Nat.div_pos h1 hp
  simp only []
  split
  · exact Nat.mul_pos hq hp
  · exact Nat.mul_pos (Nat.succ_pos _) hp

theorem roundMag_exact (a k : Nat) (hk : 2 ^ k ∣ a) (ha : a < 2 ^ (53 + k)) (h0 : a ≠ 0) :
    Double.roundMag a = a := by
  unfold Double.roundMag
  have hlog : ilog2 a < 53 + k := by
    rw [ilog2_eq_log2]; exact (Nat.log2_lt h0).2 ha
  have hsh : ilog2 a - 52 ≤ k := by omega
  have hdvd : 2 ^ (ilog2 a - 52) ∣ a := dvd_trans (pow_dvd_pow 2 hsh) hk
  have hr : a % 2 ^ (ilog2 a - 52) = 0 := Nat.mod_eq_zero_of_dvd hdvd
  have hhalf : 0 < 2 ^ (ilog2 a - 52 - 1) := Nat.pos_pow_of_pos _ (by decide)
  simp only [hr]
  rw [if_pos (Or.inl hhalf)]
  exact Nat.div_mul_cancel hdvd

theorem round_exact (d : Int) (k : Nat) (hk : 2 ^ k ∣ d.natAbs) (ha : d.natAbs < 2 ^ (53 + k))
    (hk2 : 53 + k ≤ 2098) : Double.round d = .fin d := by
  unfold Double.round
  simp only []
  split
  · rfl
  · rename_i h53
    have h0 : d.natAbs ≠ 0 := by
      intro h; rw [h] at h53; exact h53 (Nat.pos_pow_of_pos _ (by decide))
    rw [roundMag_exact d.natAbs k hk ha h0]
    have hlt : d.natAbs < 2 ^ 2098 := lt_of_lt_of_le ha (Nat.pow_le_pow_right (by decide) hk2)
    rw [if_neg (Nat.not_le.2 hlt)]
    congr 1
    split
    · omega
    · omega

theorem round_neg (d : Int) : Double.round (-d) = (Double.round d).neg := by
  unfold Double.round
  simp only [Int.natAbs_neg]
  split
  · rfl
  · rename_i h53
    have h0 : d ≠ 0 := by
      rintro rfl
      exact h53 (by simp)
    by_cases hd : d < 0
    · have hd2 : ¬ (-d < 0) := by omega
      simp only [hd, hd2, if_true, if_false]
      split <;> simp [Double.neg]
    · have hd2 : -d < 0 := by omega
      simp only [hd, hd2, if_true, if_false]
      split <;> simp [Double.neg]

theorem COMPARE_RETVAL_fin (m : Int) : COMPARE_RETVAL (Double.fin m) = Int.sign m := by
  have h1 : ((Double.fin m) > 0) ↔ 0 < m := by
    show Double.lt (Double.fin 0) (Double.fin m) = true ↔ 0 < m
    simp [Double.lt]
  have h2 : ((Double.fin m) < 0) ↔ m < 0 := by
    show Double.lt (Double.fin m) (Double.fin 0) = true ↔ m < 0
    simp [Double.lt]
  unfold COMPARE_RETVAL
  simp only [h1, h2]
  rcases lt_trichotomy m 0 with h | h | h
  · rw [Int.sign_eq_neg_one_of_neg h, if_neg (by omega), if_pos h]; rfl
  · subst h; rfl
  · rw [Int.sign_eq_one_of_pos h, if_pos h, if_neg (by omega)]; rfl

theorem COMPARE_RETVAL_inf : COMPARE_RETVAL Double.inf = 1 := by decide

theorem COMPARE_RETVAL_neginf : COMPARE_RETVAL Double.neginf = -1 := by decide

theorem COMPARE_RETVAL_nan : COMPARE_RETVAL Double.nan = 0 := by decide

theorem COMPARE_RETVAL_round (d : Int) : COMPARE_RETVAL (Double.round d) = Int.sign d := by
  unfold Double.round
  simp only []
  split
  · exact COMPARE_RETVAL_fin d
  · rename_i h53
    have h0 : d.natAbs ≠ 0 := by
      intro h; rw [h] at h53; exact h53 (Nat.pos_pow_of_pos _ (by decide))
    have hm := roundMag_pos d.natAbs h0
    by_cases hd : d < 0
    · simp only [hd, if_true]
      rw [Int.sign_eq_neg_one_of_neg hd]
      split
      · exact COMPARE_RETVAL_neginf
      · rw [COMPARE_RETVAL_fin, Int.sign_eq_neg_one_of_neg (by omega)]
    · have hpos : 0 < d := by omega
      simp only [hd, if_false]
      rw [Int.sign_eq_one_of_pos hpos]
      split
      · exact COMPARE_RETVAL_inf
      · rw [COMPARE_RETVAL_fin, Int.sign_eq_one_of_pos (by omega)]

theorem COMPARE_RETVAL_neg (x : Double) : COMPARE_RETVAL x.neg = - COMPARE_RETVAL x := by
  cases x with
  | nan => decide
  | inf => decide
  | neginf => decide
  | fin m => simp [Double.neg, COMPARE_RETVAL_fin]

theorem Double.sub_swap (x y : Double) : y - x = (x - y).neg := by
  show Double.sub y x = (Double.sub x y).neg
  cases x <;> cases y <;> try rfl
  rename_i a b
  show Double.round (b - a) = (Double.round (a - b)).neg
  rw [← round_neg]; congr 1; omega

theorem Double.sub_self_sign (x : Double) : COMPARE_RETVAL (x - x) = 0 := by
  show COMPARE_RETVAL (Double.sub x x) = 0
  cases x with
  | nan => decide
  | inf => decide
  | neginf => decide
  | fin m => simp [Double.sub, COMPARE_RETVAL_round]

/-! ## Lemmas on the comparison routine -/

theorem toDouble_of_numeric (a : SIValue) (ha : a.type ∈ numericTags) :
    ∃ x, SIValue_ToDouble a = some x := by
  unfold SIValue_ToDouble
  cases h : a.type <;> simp [h, numericTags] at ha ⊢

theorem numeric_of_toDouble (a : SIValue) (x : Double) (h : SIValue_ToDouble a = some x) :
    a.type ∈ numericTags := by
  unfold SIValue_ToDouble at h
  cases ht : a.type <;> simp [ht, numericTags] at h ⊢

theorem comparable_of_numeric (a b : SIValue) (ha : a.type ∈ numericTags)
    (hb : b.type ∈ numericTags) : SI_COMPARABLE a b = true := by
  have key : ∀ t u : SIType, t ∈ numericTags → u ∈ numericTags →
      (t.toNat == u.toNat ||
        ((t.toNat &&& SI_NUMERIC != 0) && (u.toNat &&& SI_NUMERIC != 0)) ||
        ((t.toNat &&& SI_STRING != 0) && (u.toNat &&& SI_STRING != 0))) = true := by
    decide
  exact key a.type b.type ha hb

theorem compare_of_toDouble (a b : SIValue) (x y : Double)
    (hx : SIValue_ToDouble a = some x) (hy : SIValue_ToDouble b = some y) :
    SIValue_Compare a b = COMPARE_RETVAL (x - y) := by
  unfold SIValue_Compare
  rw [if_pos (comparable_of_numeric a b (numeric_of_toDouble a x hx)
    (numeric_of_toDouble b y hy)), hx, hy]

theorem compare_of_not_comparable (a b : SIValue) (h : SI_COMPARABLE a b = false) :
    SIValue_Compare a b = tagDelta a.type b.type := by
  unfold SIValue_Compare
  simp [h]

theorem sign_sub_eq_zero (x y : Double) :
    COMPARE_RETVAL (x - y) = 0 ↔ (x = y ∨ x = .nan ∨ y = .nan) := by
  show COMPARE_RETVAL (Double.sub x y) = 0 ↔ _
  cases x <;> cases y <;>
    simp [Double.sub, COMPARE_RETVAL_nan, COMPARE_RETVAL_inf, COMPARE_RETVAL_neginf,
      COMPARE_RETVAL_round, Int.sign_eq_zero_iff_zero]
  omega

theorem ofInt_exact (i : Int) (h : |i| ≤ 2 ^ 53) : Double.ofInt i = .fin (i * Double.unit) := by
  unfold Double.ofInt
  have habs : (i * Double.unit).natAbs = i.natAbs * 2 ^ 1074 := by
    show (i * ((2 ^ 1074 : Nat) : Int)).natAbs = _
    rw [Int.natAbs_mul, Int.natAbs_ofNat]
  have hi : i.natAbs ≤ 2 ^ 53 := by
    have : (i.natAbs : Int) ≤ 2 ^ 53 := by rw [Int.natCast_natAbs]; exact h
    exact_mod_cast this
  rcases Nat.lt_or_eq_of_le hi with hlt | heq
  · apply round_exact _ 1074
    · rw [habs]; exact Dvd.intro_left _ rfl
    · rw [habs, Nat.pow_add]
      exact Nat.mul_lt_mul_of_pos_right hlt (Nat.pos_pow_of_pos _ (by decide))
    · decide
  · apply round_exact _ 1127
    · rw [habs, heq, ← Nat.pow_add]
    · rw [habs, heq, ← Nat.pow_add]
      exact Nat.pow_lt_pow_right (by decide) (by decide)
    · decide

/-! ## The type tags and the class masks -/

/-- C9: (t & SI_STRING) is non-zero exactly for T_STRING and T_CONSTSTRING, and
(t & SI_NUMERIC) exactly for T_INT32, T_INT64, T_UINT, T_FLOAT and T_DOUBLE; no
tag is in both classes, and T_NULL, T_BOOL, T_PTR, T_INF, T_NEGINF are in neither. -/
theorem C9_masks_select_documented_classes (t : SIType) :
    (t.toNat &&& SI_STRING ≠ 0 ↔ t = .T_STRING ∨ t = .T_CONSTSTRING) ∧
    (t.toNat &&& SI_NUMERIC ≠ 0 ↔
      t = .T_INT32 ∨ t = .T_INT64 ∨ t = .T_UINT ∨ t = .T_FLOAT ∨ t = .T_DOUBLE) ∧
    ¬ (t.toNat &&& SI_STRING ≠ 0 ∧ t.toNat &&& SI_NUMERIC ≠ 0) ∧
    ((t = .T_NULL ∨ t = .T_BOOL ∨ t = .T_PTR ∨ t = .T_INF ∨ t = .T_NEGINF) →
      t.toNat &&& SI_STRING = 0 ∧ t.toNat &&& SI_NUMERIC = 0) := by
  revert t
  decide

/-- C10, as stated, fails at T_NULL: its value 0 is not a power of two and has no
bit set. -/
theorem C10_null_tag_not_power_of_two :
    ¬ (∀ t : SIType, ∃ k : Nat, t.toNat = 2 ^ k) ∧
    (¬ ∃ k : Nat, SIType.T_NULL.toNat = 2 ^ k) ∧
    (∀ i : Nat, SIType.T_NULL.toNat.testBit i = false) := by
  have h0 : ¬ ∃ k : Nat, SIType.T_NULL.toNat = 2 ^ k := by
    rintro ⟨k, hk⟩
    have hpos : 0 < 2 ^ k := Nat.pos_pow_of_pos k (by decide)
    simp only [SIType.toNat] at hk
    omega
  refine ⟨fun h => h0 (h .T_NULL), h0, fun i => ?_⟩
  simp [SIType.toNat]

/-- C10 (amended): every member of SIType other than T_NULL has a power-of-two value,
that is exactly one bit set; T_NULL has the value 0, with no bit set; and any two
distinct members have different values. -/
theorem C10_tags_single_bit_except_null :
    (∀ t : SIType, t ≠ .T_NULL →
      ∃ k : Nat, t.toNat = 2 ^ k ∧ ∀ i : Nat, t.toNat.testBit i = decide (k = i)) ∧
    SIType.T_NULL.toNat = 0 ∧
    (∀ t u : SIType, t ≠ u → t.toNat ≠ u.toNat) := by
  refine ⟨fun t ht => ?_, rfl, by decide⟩
  have key : ∀ u : SIType, u ≠ .T_NULL → ∃ k : Nat, k < 11 ∧ u.toNat = 2 ^ k := by decide
  obtain ⟨k, _, hk⟩ := key t ht
  exact ⟨k, hk, fun i => by rw [hk, Nat.testBit_two_pow]⟩

/-! ## The tag delta across classes -/

/-- C1 (evaluated on the code): the delta of a numeric tag and a string tag has the
sign opposite to the documented one. T_INT32 - T_STRING is 3 and T_STRING - T_INT32
is -3; for every numeric-class tag n and every string-class tag s, n - s is
positive and s - n is negative, so the delta orders number above string. -/
theorem C1_numeric_string_delta_sign :
    tagDelta .T_INT32 .T_STRING = 3 ∧ tagDelta .T_STRING .T_INT32 = -3 ∧
    (∀ n s : SIType, n ∈ numericTags → s ∈ stringTags →
      0 < tagDelta n s ∧ tagDelta s n < 0) := by
  decide

/-- C2: for every tag t of the numeric or string class, T_NULL - t is negative and
t - T_NULL is positive, and a value tagged T_NULL is never SI_COMPARABLE with a value
tagged t, in either order. -/
theorem C2_null_orders_first (t : SIType) (a b : SIValue)
    (ht : t ∈ numericTags ∨ t ∈ stringTags) (ha : a.type = .T_NULL) (hb : b.type = t) :
    tagDelta .T_NULL t < 0 ∧ 0 < tagDelta t .T_NULL ∧
    SI_COMPARABLE a b = false ∧ SI_COMPARABLE b a = false := by
  have key : ∀ u : SIType, (u ∈ numericTags ∨ u ∈ stringTags) →
      tagDelta .T_NULL u < 0 ∧ 0 < tagDelta u .T_NULL ∧
      (SIType.T_NULL.toNat == u.toNat ||
        ((SIType.T_NULL.toNat &&& SI_NUMERIC != 0) && (u.toNat &&& SI_NUMERIC != 0)) ||
        ((SIType.T_NULL.toNat &&& SI_STRING != 0) && (u.toNat &&& SI_STRING != 0))) = false ∧
      (u.toNat == SIType.T_NULL.toNat ||
        ((u.toNat &&& SI_NUMERIC != 0) && (SIType.T_NULL.toNat &&& SI_NUMERIC != 0)) ||
        ((u.toNat &&& SI_STRING != 0) && (SIType.T_NULL.toNat &&& SI_STRING != 0))) = false := by
    decide
  unfold SI_COMPARABLE
  rw [ha, hb]
  exact key t ht

/-- Witness for C2 at a null value and a 64-bit integer value. -/
theorem C2_null_orders_first_witness :
    tagDelta .T_NULL .T_INT64 < 0 ∧ 0 < tagDelta .T_INT64 .T_NULL ∧
    SI_COMPARABLE { type := .T_NULL } (SI_LongVal 7) = false ∧
    SI_COMPARABLE (SI_LongVal 7) { type := .T_NULL } = false :=
  C2_null_orders_first .T_INT64 { type := .T_NULL } (SI_LongVal 7)
    (by decide) rfl rfl

/-- C3 (evaluated on the code): T_INF - n is positive for every numeric-class tag n,
but so is T_NEGINF - n: T_NEGINF - T_INT32 is 1020, and the delta places the negative
infinity sentinel above every numeric tag, and above T_INF. -/
theorem C3_infinity_sentinel_deltas :
    tagDelta .T_NEGINF .T_INT32 = 1020 ∧
    (∀ n : SIType, n ∈ numericTags → 0 < tagDelta .T_INF n ∧ 0 < tagDelta .T_NEGINF n) ∧
    0 < tagDelta .T_NEGINF .T_INF := by
  decide

/-! ## Comparability -/

/-- C8: SI_COMPARABLE(a, b) holds exactly when a and b have the same tag, both have a
numeric-class tag, or both have a string-class tag; it is reflexive and symmetric;
and a value tagged T_NULL, T_BOOL, T_PTR, T_INF or T_NEGINF is comparable only with
a value of the same tag. -/
theorem C8_comparable_iff_same_class (a b : SIValue) :
    (SI_COMPARABLE a b = true ↔
      a.type = b.type ∨ (a.type ∈ numericTags ∧ b.type ∈ numericTags) ∨
        (a.type ∈ stringTags ∧ b.type ∈ stringTags)) ∧
    SI_COMPARABLE a a = true ∧
    SI_COMPARABLE a b = SI_COMPARABLE b a ∧
    (a.type ∈ [SIType.T_NULL, .T_BOOL, .T_PTR, .T_INF, .T_NEGINF] →
      (SI_COMPARABLE a b = true ↔ b.type = a.type)) := by
  have key : ∀ t u : SIType,
      let c := fun (x y : SIType) =>
        (x.toNat == y.toNat ||
          ((x.toNat &&& SI_NUMERIC != 0) && (y.toNat &&& SI_NUMERIC != 0)) ||
          ((x.toNat &&& SI_STRING != 0) && (y.toNat &&& SI_STRING != 0)))
      (c t u = true ↔
        t = u ∨ (t ∈ numericTags ∧ u ∈ numericTags) ∨ (t ∈ stringTags ∧ u ∈ stringTags)) ∧
      c t t = true ∧ c t u = c u t ∧
      (t ∈ [SIType.T_NULL, .T_BOOL, .T_PTR, .T_INF, .T_NEGINF] → (c t u = true ↔ u = t)) := by
    decide
  exact key a.type b.type

/-! ## The sign-extraction step -/

/-- C6: COMPARE_RETVAL is the sign function. On every linearly ordered number type
it yields 1 for a positive argument, -1 for a negative one and 0 for zero, so its
result is in {-1, 0, 1} and is 0 only for 0; on doubles it does the same (with 0
for not-a-number only besides zero); and a rational d with 0 < |d| < 1 gets a
non-zero result although truncating it to an integer gives 0. -/
theorem C6_COMPARE_RETVAL_is_sign :
    (∀ (α : Type) [LinearOrder α] [Zero α] (d : α),
      COMPARE_RETVAL d = (if 0 < d then 1 else if d < 0 then -1 else 0) ∧
      (COMPARE_RETVAL d = 1 ∨ COMPARE_RETVAL d = 0 ∨ COMPARE_RETVAL d = -1) ∧
      (COMPARE_RETVAL d = 0 ↔ d = 0)) ∧
    (∀ d : Double,
      COMPARE_RETVAL d = (if 0 < d then 1 else if d < 0 then -1 else 0) ∧
      (COMPARE_RETVAL d = 1 ∨ COMPARE_RETVAL d = 0 ∨ COMPARE_RETVAL d = -1) ∧
      (COMPARE_RETVAL d = 0 ↔ d = 0 ∨ d = .nan)) ∧
    (∀ d : ℚ, 0 < |d| → |d| < 1 → COMPARE_RETVAL d ≠ 0 ∧ truncToInt d = 0) := by
  have lin : ∀ (α : Type) [LinearOrder α] [Zero α] (d : α),
      COMPARE_RETVAL d = (if 0 < d then 1 else if d < 0 then -1 else 0) ∧
      (COMPARE_RETVAL d = 1 ∨ COMPARE_RETVAL d = 0 ∨ COMPARE_RETVAL d = -1) ∧
      (COMPARE_RETVAL d = 0 ↔ d = 0) := by
    intro α _ _ d
    unfold COMPARE_RETVAL
    rcases lt_trichotomy d 0 with h | h | h
    · have h2 : ¬ 0 < d := not_lt_of_gt h
      simp [h, h2, h.ne]
    · subst h; simp
    · have h2 : ¬ d < 0 := not_lt_of_gt h
      simp [h, h2, ne_of_gt h]
  refine ⟨lin, fun d => ?_, fun d h0 h1 => ⟨?_, ?_⟩⟩
  · cases d with
    | nan => decide
    | inf => decide
    | neginf => decide
    | fin m =>
      have h1 : (0 < Double.fin m) ↔ 0 < m := by
        show Double.lt (Double.fin 0) (Double.fin m) = true ↔ 0 < m
        simp [Double.lt]
      have h2 : (Double.fin m < 0) ↔ m < 0 := by
        show Double.lt (Double.fin m) (Double.fin 0) = true ↔ m < 0
        simp [Double.lt]
      have h3 : (Double.fin m = 0) ↔ m = 0 := by
        show Double.fin m = Double.fin 0 ↔ m = 0
        simp
      rw [COMPARE_RETVAL_fin]
      simp only [h1, h2, h3, or_false]
      rcases lt_trichotomy m 0 with h | h | h
      · rw [Int.sign_eq_neg_one_of_neg h, if_neg (by omega), if_pos h]
        exact ⟨rfl, by decide, by simp; omega⟩
      · subst h; decide
      · rw [Int.sign_eq_one_of_pos h, if_pos h]
        exact ⟨rfl, by decide, by simp; omega⟩
  · intro h
    have hd : d = 0 := (lin ℚ d).2.2.1 h
    rw [hd] at h0
    simp at h0
  · unfold truncToInt
    rw [abs_lt] at h1
    split
    · rename_i hd
      rw [Int.floor_eq_iff]
      exact ⟨by simpa using hd, by simpa using h1.2⟩
    · rename_i hd
      rw [Int.ceil_eq_iff]
      constructor
      · simpa using h1.1
      · simpa using (le_of_lt (not_le.1 hd))

/-! ## The comparison of numeric-class values -/

/-- C7: for all numeric-class values a and b, compare(a,b) = -compare(b,a) and
compare(a,a) = 0, the comparison being COMPARE_RETVAL of the difference of the
values promoted to double. -/
theorem C7_numeric_compare_antisymmetric (a b : SIValue)
    (ha : a.type ∈ numericTags) (hb : b.type ∈ numericTags) :
    SIValue_Compare a b = - SIValue_Compare b a ∧ SIValue_Compare a a = 0 := by
  obtain ⟨x, hx⟩ := toDouble_of_numeric a ha
  obtain ⟨y, hy⟩ := toDouble_of_numeric b hb
  rw [compare_of_toDouble a b x y hx hy, compare_of_toDouble b a y x hy hx,
    compare_of_toDouble a a x x hx hx, Double.sub_swap y x, COMPARE_RETVAL_neg]
  exact ⟨rfl, Double.sub_self_sign x⟩

/-- Witness for C7 at the 32-bit integer 3 and the double 2.5. -/
theorem C7_numeric_compare_antisymmetric_witness :
    SIValue_Compare (SI_IntVal 3) (SI_DoubleVal (.fin (5 * 2 ^ 1073))) =
      - SIValue_Compare (SI_DoubleVal (.fin (5 * 2 ^ 1073))) (SI_IntVal 3) ∧
    SIValue_Compare (SI_IntVal 3) (SI_IntVal 3) = 0 :=
  C7_numeric_compare_antisymmetric (SI_IntVal 3) (SI_DoubleVal (.fin (5 * 2 ^ 1073)))
    (by decide) (by decide)

/-- C5, as stated, fails for large 64-bit integers: 2^53 and 2^53 + 1 are promoted
to the same double, so their comparison is 0 although the values differ. -/
theorem C5_large_integers_tie :
    SIValue_Compare (SI_LongVal (2 ^ 53)) (SI_LongVal (2 ^ 53 + 1)) = 0 ∧
    (SI_LongVal (2 ^ 53)).longval ≠ (SI_LongVal (2 ^ 53 + 1)).longval ∧
    ¬ (∀ a b : SIValue, a.type = .T_INT64 → b.type = .T_INT64 →
        SIValue_Compare a b = 0 → a.longval = b.longval) := by
  have h1 : SIValue_Compare (SI_LongVal (2 ^ 53)) (SI_LongVal (2 ^ 53 + 1)) = 0 := by
    decide
  have h2 : (SI_LongVal (2 ^ 53)).longval ≠ (SI_LongVal (2 ^ 53 + 1)).longval := by
    decide
  exact ⟨h1, h2, fun h => h2 (h _ _ rfl rfl h1)⟩

/-- C5 (amended): for numeric-class values a and b the comparison is 0 exactly when
their promotions to double are equal or one of them is not-a-number; for integer
payloads of magnitude at most 2^53 (every 32-bit integer among them) it is 0 exactly
when the integers are equal; and for two values whose tags differ and are not
SI_COMPARABLE the result is never 0. -/
theorem C5_zero_iff_equal_promotions (a b : SIValue) :
    (∀ x y : Double, SIValue_ToDouble a = some x → SIValue_ToDouble b = some y →
      (SIValue_Compare a b = 0 ↔ (x = y ∨ x = .nan ∨ y = .nan))) ∧
    (∀ i j : Int, a.intPayload = some i → b.intPayload = some j →
      |i| ≤ 2 ^ 53 → |j| ≤ 2 ^ 53 → (SIValue_Compare a b = 0 ↔ i = j)) ∧
    (a.type ≠ b.type → SI_COMPARABLE a b = false → SIValue_Compare a b ≠ 0) := by
  refine ⟨fun x y hx hy => ?_, fun i j hi hj hib hjb => ?_, fun hne hc => ?_⟩
  · rw [compare_of_toDouble a b x y hx hy]
    exact sign_sub_eq_zero x y
  · have hx : SIValue_ToDouble a = some (Double.ofInt i) := by
      unfold SIValue.intPayload at hi
      unfold SIValue_ToDouble
      cases ht : a.type <;> simp [ht] at hi ⊢ <;> rw [hi]
    have hy : SIValue_ToDouble b = some (Double.ofInt j) := by
      unfold SIValue.intPayload at hj
      unfold SIValue_ToDouble
      cases ht : b.type <;> simp [ht] at hj ⊢ <;> rw [hj]
    rw [compare_of_toDouble a b _ _ hx hy, sign_sub_eq_zero, ofInt_exact i hib,
      ofInt_exact j hjb]
    have hu : Double.unit ≠ 0 :=
      Int.natCast_ne_zero.mpr (Nat.ne_of_gt (Nat.pos_pow_of_pos 1074 (by decide : 0 < 2)))
    simp [hu]
  · rw [compare_of_not_comparable a b hc]
    have key : ∀ t u : SIType, t ≠ u → tagDelta t u ≠ 0 := by decide
    exact key a.type b.type hne

/-- Witness for the amended C5: the doubles behind 2^53 and 2^53 + 1 are equal, the
32-bit integers 3 and 4 differ, and a null and a 64-bit integer are not comparable. -/
theorem C5_zero_iff_equal_promotions_witness :
    (SIValue_Compare (SI_LongVal (2 ^ 53)) (SI_LongVal (2 ^ 53 + 1)) = 0 ↔
      (Double.ofInt (2 ^ 53) = Double.ofInt (2 ^ 53 + 1) ∨ Double.ofInt (2 ^ 53) = .nan ∨
        Double.ofInt (2 ^ 53 + 1) = .nan)) ∧
    (SIValue_Compare (SI_IntVal 3) (SI_IntVal 4) = 0 ↔ (3 : Int) = 4) ∧
    SIValue_Compare { type := .T_NULL } (SI_LongVal 7) ≠ 0 :=
  ⟨(C5_zero_iff_equal_promotions (SI_LongVal (2 ^ 53)) (SI_LongVal (2 ^ 53 + 1))).1
      _ _ rfl rfl,
    (C5_zero_iff_equal_promotions (SI_IntVal 3) (SI_IntVal 4)).2.1 3 4 rfl rfl
      (by decide) (by decide),
    (C5_zero_iff_equal_promotions { type := .T_NULL } (SI_LongVal 7)).2.2
      (by decide) (by decide)⟩

/-! ## The comparison across classes -/

/-- C4 (evaluated on the model of the comparison): transitivity fails. The unsigned
integer 100 is below the boolean true by the tag delta (0x10 - 0x20), the boolean is
below the double 1.0 by the tag delta (0x20 - 0x80), yet 100 compares above 1.0. -/
theorem C4_transitivity_fails_through_bool :
    SIValue_Compare (SI_UintVal 100) (SI_BoolVal 1) < 0 ∧
    SIValue_Compare (SI_BoolVal 1) (SI_DoubleVal (.fin Double.unit)) < 0 ∧
    SIValue_Compare (SI_UintVal 100) (SI_DoubleVal (.fin Double.unit)) = 1 := by
  decide

end RedisGraph
